import Mathlib

set_option maxRecDepth 10000

/-! # Mindful-breathing timing engine: shallow embedding and verification

This file embeds the session timing engine of the single-screen breathing
timer (the application component together with its `BreathPhase` type) and
proves the specified properties about it.

The component keeps six pieces of React state (`timeLeft`, `isActive`,
`phase`, `holdDuration`, `totalSessions`, `showCelebration`) plus two timer
refs (the countdown interval and the phase-transition timeout) and the
`localStorage` entry `meditation_count`.  We embed all of these in one
record `AppState`.  Event handlers become pure functions on `AppState`; the
two `useEffect` blocks whose dependencies are `[isActive, timeLeft]` and
`[isActive]` are run explicitly after every state change by `runEffects`.
Time is advanced at one-second granularity by `advanceOneSecond`, which
fires the countdown interval and then any due phase timeout.  Audio
(`playBeep`) has no effect on the embedded state except through control
flow: `handleComplete` takes a flag saying whether the beep call threw, in
which case the statements after the call do not run (queued React state
updates issued before the throw still apply). -/

/-- The five breathing phases (source type `BreathPhase`). -/
inductive BreathPhase where
  | Ready | Inhale | Hold | Exhale | Complete
  deriving DecidableEq, Repr

/-- A JavaScript number as the counter logic can produce it: a proper
integer, or the NaN that `parseInt` returns on digit-free input. -/
inductive JsNum where
  | nan | int (n : Int)
  deriving DecidableEq, Repr

/-- Adding one, as in `const newCount = totalSessions + 1` (NaN + 1 = NaN). -/
def JsNum.addOne : JsNum → JsNum
  | .nan => .nan
  | .int n => .int (n + 1)

/-- String rendering, as in `newCount.toString()`. -/
def JsNum.render : JsNum → String
  | .nan => "NaN"
  | .int n => toString n

/-- ASCII whitespace that `parseInt` skips before reading the number. -/
def isSpaceChar (c : Char) : Bool :=
  c == ' ' || c == '\t' || c == '\n' || c == '\r'

/-- Maximal leading run of decimal digits of a character list. -/
def leadingDigits : List Char → List Char
  | [] => []
  | c :: cs => if c.isDigit then c :: leadingDigits cs else []

/-- Numeric value of a decimal digit character. -/
def digitVal (c : Char) : Nat := c.toNat - 48

/-- Base-10 value of a list of digit characters. -/
def digitsToNat (cs : List Char) : Nat :=
  cs.foldl (fun a c => 10 * a + digitVal c) 0

/-- Signed value of the digit run at the head of `cs`; NaN if there is no
leading digit. -/
def digitsVal (sign : Int) (cs : List Char) : JsNum :=
  if leadingDigits cs = [] then .nan
  else .int (sign * (digitsToNat (leadingDigits cs) : Int))

/-- Model of `parseInt(s, 10)`: skip leading whitespace, read an optional
sign, then the maximal digit run; NaN when no digits follow. -/
def parseIntTen (str : String) : JsNum :=
  match str.toList.dropWhile isSpaceChar with
  | [] => .nan
  | c :: rest =>
      if c = '-' then digitsVal (-1) rest
      else if c = '+' then digitsVal 1 rest
      else digitsVal 1 (c :: rest)

/-- Initial `totalSessions` produced by the initialization effect:
`const saved = localStorage.getItem('meditation_count');
if (saved) setTotalSessions(parseInt(saved, 10));` — an absent key or an
empty (falsy) string leaves the `useState` default 0. -/
def initTotalSessions : Option String → JsNum
  | none => .int 0
  | some sv => if sv = "" then .int 0 else parseIntTen sv

/-- The transition a scheduled phase timeout will perform when it fires. -/
inductive NextStep where
  | toHold | toExhale | toRestart
  deriving DecidableEq, Repr

/-- A pending `setTimeout` of the breathing cycle: which transition it
performs, the seconds left until it fires, and the values of `isActive` and
`holdDuration` its closure captured when the cycle was started (the nested
callbacks of `startBreathingCycle` read the captured values, not the live
state). -/
structure PendingPhase where
  next : NextStep
  delay : Nat
  capturedActive : Bool
  capturedHold : Nat
  deriving DecidableEq, Repr

attribute [ext] PendingPhase

/-- The whole embedded component state: the six `useState` values, the two
timer refs (`none` = no timer scheduled; for a scheduled timer, the seconds
until it fires), and the `localStorage` entry `meditation_count`. -/
structure AppState where
  timeLeft : Int
  isActive : Bool
  phase : BreathPhase
  holdDuration : Nat
  totalSessions : JsNum
  showCelebration : Bool
  intervalDelay : Option Nat
  pendingPhase : Option PendingPhase
  store : Option String
  deriving DecidableEq, Repr

attribute [ext] AppState

/-- `const INITIAL_TIME = 300` (5 minutes in seconds). -/
def INITIAL_TIME : Int := 300

/-- `const INHALE_TIME = 4`. -/
def INHALE_TIME : Nat := 4

/-- `const EXHALE_TIME = 4`. -/
def EXHALE_TIME : Nat := 4

/-- `startBreathingCycle`: sets `phase` to Inhale, plays the low beep, and
schedules the Inhale→Hold timeout after `INHALE_TIME` seconds.  The
scheduled chain captures the current `isActive` and `holdDuration`. -/
def startBreathingCycle (s : AppState) : AppState :=
  { s with phase := .Inhale
         , pendingPhase := some ⟨.toHold, INHALE_TIME, s.isActive, s.holdDuration⟩ }

/-- A scheduled phase timeout fires (the pending entry has already been
consumed from `s`).  Each callback first performs the stale-closure guard
`if (!isActive) return;` against its captured `isActive`, then sets the
next phase and schedules the following timeout; the Exhale callback loops
by calling `startBreathingCycle`, which reuses the captured closure
values. -/
def firePhase (s : AppState) (p : PendingPhase) : AppState :=
  if p.capturedActive = false then s
  else
    match p.next with
    | .toHold =>
        { s with phase := .Hold
               , pendingPhase := some ⟨.toExhale, p.capturedHold, p.capturedActive, p.capturedHold⟩ }
    | .toExhale =>
        { s with phase := .Exhale
               , pendingPhase := some ⟨.toRestart, EXHALE_TIME, p.capturedActive, p.capturedHold⟩ }
    | .toRestart =>
        { s with phase := .Inhale
               , pendingPhase := some ⟨.toHold, INHALE_TIME, p.capturedActive, p.capturedHold⟩ }

/-- `handleComplete`: deactivate, show the Complete phase and celebration,
play the completion tone, then increment and persist the counter.  When
`beepThrows` is true the `playBeep(600, 'triangle')` call throws, so the
increment and the `localStorage.setItem` after it do not run; the three
state updates queued before the call still apply. -/
def handleComplete (s : AppState) (beepThrows : Bool) : AppState :=
  if beepThrows then
    { s with isActive := false, phase := .Complete, showCelebration := true }
  else
    { s with isActive := false, phase := .Complete, showCelebration := true
           , totalSessions := s.totalSessions.addOne
           , store := some s.totalSessions.addOne.render }

/-- One firing of the countdown interval:
`setTimeLeft(prev => prev <= 1 ? (handleComplete(), 0) : prev - 1)`. -/
def clockTick (s : AppState) : AppState :=
  if s.timeLeft ≤ 1 then { handleComplete s false with timeLeft := 0 }
  else { s with timeLeft := s.timeLeft - 1 }

/-- `resetSession` (the celebration "Done" action and the
completed-session branch of `handleStartPause`): restores the initial
display state but clears no timers. -/
def resetSession (s : AppState) : AppState :=
  { s with timeLeft := INITIAL_TIME, phase := .Ready
         , showCelebration := false, isActive := false }

/-- `handleStartPause`: if the session previously completed
(`!isActive && timeLeft === 0`) run `resetSession`, otherwise toggle
`isActive`. -/
def handleStartPause (s : AppState) : AppState :=
  if s.isActive = false ∧ s.timeLeft = 0 then resetSession s
  else { s with isActive := !s.isActive }

/-- `handleReset`: restore the initial display state and clear both the
phase timeout and the countdown interval. -/
def handleReset (s : AppState) : AppState :=
  { s with isActive := false, timeLeft := INITIAL_TIME, phase := .Ready
         , showCelebration := false, pendingPhase := none, intervalDelay := none }

/-- The hold-duration selector button:
`onClick={() => !isActive && setHoldDuration(sec)}` (also `disabled`
while active). -/
def clickHoldDuration (s : AppState) (d : Nat) : AppState :=
  if s.isActive = true then s else { s with holdDuration := d }

/-- The timer effect (`useEffect` with deps `[isActive, timeLeft]`): when a
dependency changed, the cleanup clears the old interval and the body
starts a fresh one iff `isActive && timeLeft > 0`. -/
def timerEffect (old s : AppState) : AppState :=
  if old.isActive = s.isActive ∧ old.timeLeft = s.timeLeft then s
  else { s with intervalDelay :=
          if s.isActive = true ∧ 0 < s.timeLeft then some 1 else none }

/-- The breathing-cycle effect (`useEffect` with deps `[isActive]`): when
`isActive` changed, start the cycle if the session became active at phase
Ready, and clear the pending phase timeout if it became inactive. -/
def cycleEffect (old s : AppState) : AppState :=
  if old.isActive = s.isActive then s
  else if s.isActive = true ∧ s.phase = .Ready then startBreathingCycle s
  else if s.isActive = false then { s with pendingPhase := none }
  else s

/-- Both effects, in source order, run against the pre-event state `old`. -/
def runEffects (old s : AppState) : AppState :=
  cycleEffect old (timerEffect old s)

/-- A user press of the start/pause button, including the effects that
React runs after the state update. -/
def eventStartPause (s : AppState) : AppState :=
  runEffects s (handleStartPause s)

/-- A user press of the reset button, including the effects. -/
def eventReset (s : AppState) : AppState :=
  runEffects s (handleReset s)

/-- A user press of the celebration "Done" button, including the
effects. -/
def eventDone (s : AppState) : AppState :=
  runEffects s (resetSession s)

/-- A user press of a hold-duration selector button, including the
effects. -/
def eventClickHold (s : AppState) (d : Nat) : AppState :=
  runEffects s (clickHoldDuration s d)

/-- The state right after mount, with the `meditation_count` entry `st`
loaded by the initialization effect; the mount run of the other two
effects leaves both timers unscheduled because `isActive` is false. -/
def initState (st : Option String) : AppState :=
  { timeLeft := INITIAL_TIME, isActive := false, phase := .Ready
  , holdDuration := 1, totalSessions := initTotalSessions st
  , showCelebration := false, intervalDelay := none, pendingPhase := none
  , store := st }

/-- One second of simulated time: both timers count down; the countdown
interval fires first if due (followed by its effects), then a due phase
timeout fires (followed by its effects). -/
def advanceOneSecond (s : AppState) : AppState :=
  let s0 : AppState :=
    { s with intervalDelay := s.intervalDelay.map (fun d => d - 1)
           , pendingPhase := s.pendingPhase.map (fun p => { p with delay := p.delay - 1 }) }
  let s1 : AppState :=
    if s0.intervalDelay = some 0 then runEffects s0 (clockTick s0) else s0
  match s1.pendingPhase with
  | none => s1
  | some p =>
      if p.delay = 0 then runEffects s1 (firePhase { s1 with pendingPhase := none } p)
      else s1

/-- `n` seconds of simulated time. -/
def advanceSeconds : Nat → AppState → AppState
  | 0, s => s
  | n + 1, s => advanceSeconds n (advanceOneSecond s)

/-- States the component can reach: the mounted state for any stored
counter entry, closed under the four user intents (the selector only
offers 1, 2 and 4) and the passage of time. -/
inductive Reachable : AppState → Prop
  | init (st : Option String) : Reachable (initState st)
  | startPause {s : AppState} : Reachable s → Reachable (eventStartPause s)
  | reset {s : AppState} : Reachable s → Reachable (eventReset s)
  | done {s : AppState} : Reachable s → Reachable (eventDone s)
  | clickHold {s : AppState} (d : Nat) (hd : d = 1 ∨ d = 2 ∨ d = 4) :
      Reachable s → Reachable (eventClickHold s d)
  | advance {s : AppState} : Reachable s → Reachable (advanceOneSecond s)

/-- The state invariant maintained by every event: the hold duration stays
in the offered set; an inactive state has no scheduled timers; an active
state has the countdown interval scheduled and time remaining; time never
goes negative; and a scheduled phase timeout carries the captured values
of the running cycle and matches the phase currently shown. -/
def StateInv (s : AppState) : Prop :=
  (s.holdDuration = 1 ∨ s.holdDuration = 2 ∨ s.holdDuration = 4) ∧
  (s.isActive = false → s.pendingPhase = none ∧ s.intervalDelay = none) ∧
  (s.isActive = true → s.intervalDelay = some 1 ∧ 0 < s.timeLeft) ∧
  (0 ≤ s.timeLeft) ∧
  (∀ p, s.pendingPhase = some p →
    p.capturedActive = true ∧ p.capturedHold = s.holdDuration ∧
    (p.next = .toHold → s.phase = .Inhale) ∧
    (p.next = .toExhale → s.phase = .Hold) ∧
    (p.next = .toRestart → s.phase = .Exhale))

/-- The Session Clock run in isolation (claim C1): a state with the session
active, `timeLeft = t`, no phase timeout scheduled, and the countdown
interval exactly as the timer effect leaves it — scheduled iff time
remains. -/
def clockStart (t : Nat) : AppState :=
  { timeLeft := (t : Int), isActive := true, phase := .Inhale
  , holdDuration := 1, totalSessions := .int 0, showCelebration := false
  , intervalDelay := if 0 < t then some 1 else none, pendingPhase := none
  , store := none }

/-- The state the isolated Session Clock run ends in once completion has
fired. -/
def clockDone : AppState :=
  { timeLeft := 0, isActive := false, phase := .Complete
  , holdDuration := 1, totalSessions := .int 1, showCelebration := true
  , intervalDelay := none, pendingPhase := none, store := some "1" }

/-! ## Basic lemmas about the effects and time advancement -/

lemma runEffects_self (s : AppState) : runEffects s s = s := by
  simp [runEffects, timerEffect, cycleEffect]

lemma advance_fix (s : AppState) (h1 : s.intervalDelay = none)
    (h2 : s.pendingPhase = none) : advanceOneSecond s = s := by
  obtain ⟨tl, ia, ph, hd, ts, sc, iv, pp, st⟩ := s
  simp only at h1 h2
  subst h1
  subst h2
  simp [advanceOneSecond]

lemma advanceSeconds_fix (n : Nat) (s : AppState) (h1 : s.intervalDelay = none)
    (h2 : s.pendingPhase = none) : advanceSeconds n s = s := by
  induction n with
  | zero => rfl
  | succ n ih =>
      show advanceSeconds n (advanceOneSecond s) = s
      rw [advance_fix s h1 h2, ih]

lemma eventClickHold_active (s : AppState) (d : Nat) (h : s.isActive = true) :
    eventClickHold s d = s := by
  obtain ⟨tl, ia, ph, hd, ts, sc, iv, pp, st⟩ := s
  simp only at h
  subst h
  simp [eventClickHold, clickHoldDuration, runEffects, timerEffect, cycleEffect]

lemma eventClickHold_inactive (s : AppState) (d : Nat) (h : s.isActive = false) :
    eventClickHold s d = { s with holdDuration := d } := by
  obtain ⟨tl, ia, ph, hd, ts, sc, iv, pp, st⟩ := s
  simp only at h
  subst h
  simp [eventClickHold, clickHoldDuration, runEffects, timerEffect, cycleEffect]

lemma eventReset_eq (s : AppState) :
    eventReset s =
      { timeLeft := INITIAL_TIME, isActive := false, phase := .Ready
      , holdDuration := s.holdDuration, totalSessions := s.totalSessions
      , showCelebration := false, intervalDelay := none, pendingPhase := none
      , store := s.store } := by
  obtain ⟨tl, ia, ph, hd, ts, sc, iv, pp, st⟩ := s
  simp only [eventReset, runEffects, handleReset, timerEffect, cycleEffect]
  split_ifs <;> simp_all [startBreathingCycle]


lemma runEffects_noop (old s : AppState) (h1 : old.isActive = s.isActive)
    (h2 : old.timeLeft = s.timeLeft) : runEffects old s = s := by
  simp [runEffects, timerEffect, cycleEffect, h1, h2]

lemma eventDone_eq (s : AppState) :
    eventDone s =
      { timeLeft := INITIAL_TIME, isActive := false, phase := .Ready
      , holdDuration := s.holdDuration, totalSessions := s.totalSessions
      , showCelebration := false
      , intervalDelay :=
          if s.isActive = false ∧ s.timeLeft = INITIAL_TIME then s.intervalDelay
          else none
      , pendingPhase := if s.isActive = false then s.pendingPhase else none
      , store := s.store } := by
  obtain ⟨tl, ia, ph, hd, ts, sc, iv, pp, st⟩ := s
  cases ia <;> by_cases htl : tl = INITIAL_TIME <;>
    simp [eventDone, resetSession, runEffects, timerEffect, cycleEffect, htl]

lemma eventStartPause_finished (s : AppState) (hia : s.isActive = false)
    (htl : s.timeLeft = 0) :
    eventStartPause s =
      { timeLeft := INITIAL_TIME, isActive := false, phase := .Ready
      , holdDuration := s.holdDuration, totalSessions := s.totalSessions
      , showCelebration := false, intervalDelay := none
      , pendingPhase := s.pendingPhase, store := s.store } := by
  obtain ⟨tl, ia, ph, hd, ts, sc, iv, pp, st⟩ := s
  simp only at hia htl
  subst hia htl
  simp [eventStartPause, handleStartPause, resetSession, runEffects, timerEffect,
    cycleEffect, INITIAL_TIME]

lemma eventStartPause_pause (s : AppState) (hia : s.isActive = true) :
    eventStartPause s =
      { s with isActive := false, intervalDelay := none, pendingPhase := none } := by
  obtain ⟨tl, ia, ph, hd, ts, sc, iv, pp, st⟩ := s
  simp only at hia
  subst hia
  simp [eventStartPause, handleStartPause, resetSession, runEffects, timerEffect,
    cycleEffect]

lemma eventStartPause_activate (s : AppState) (hia : s.isActive = false)
    (htl : s.timeLeft ≠ 0) :
    eventStartPause s =
      { timeLeft := s.timeLeft, isActive := true
      , phase := if s.phase = .Ready then .Inhale else s.phase
      , holdDuration := s.holdDuration, totalSessions := s.totalSessions
      , showCelebration := s.showCelebration
      , intervalDelay := if 0 < s.timeLeft then some 1 else none
      , pendingPhase :=
          if s.phase = .Ready then some ⟨.toHold, INHALE_TIME, true, s.holdDuration⟩
          else s.pendingPhase
      , store := s.store } := by
  obtain ⟨tl, ia, ph, hd, ts, sc, iv, pp, st⟩ := s
  simp only at hia htl
  subst hia
  by_cases hph : ph = BreathPhase.Ready <;>
    simp [eventStartPause, handleStartPause, resetSession, runEffects, timerEffect,
      cycleEffect, startBreathingCycle, htl, hph]

lemma firePhase_isActive (s : AppState) (p : PendingPhase) :
    (firePhase s p).isActive = s.isActive := by
  obtain ⟨nx, d, ca, ch⟩ := p
  cases nx <;> simp [firePhase] <;> split_ifs <;> rfl

lemma firePhase_timeLeft (s : AppState) (p : PendingPhase) :
    (firePhase s p).timeLeft = s.timeLeft := by
  obtain ⟨nx, d, ca, ch⟩ := p
  cases nx <;> simp [firePhase] <;> split_ifs <;> rfl

lemma advance_complete (s : AppState) (hia : s.isActive = true)
    (hiv : s.intervalDelay = some 1) (htl : s.timeLeft = 1) :
    advanceOneSecond s =
      { timeLeft := 0, isActive := false, phase := .Complete
      , holdDuration := s.holdDuration
      , totalSessions := s.totalSessions.addOne, showCelebration := true
      , intervalDelay := none, pendingPhase := none
      , store := some s.totalSessions.addOne.render } := by
  obtain ⟨tl, ia, ph, hd, ts, sc, iv, pp, st⟩ := s
  simp only at hia hiv htl
  subst hia hiv htl
  simp [advanceOneSecond, clockTick, handleComplete, runEffects, timerEffect,
    cycleEffect]

lemma advance_running_nopending (s : AppState) (hia : s.isActive = true)
    (hiv : s.intervalDelay = some 1) (htl : 1 < s.timeLeft)
    (hpp : s.pendingPhase = none) :
    advanceOneSecond s = { s with timeLeft := s.timeLeft - 1, intervalDelay := some 1 } := by
  obtain ⟨tl, ia, ph, hd, ts, sc, iv, pp, st⟩ := s
  simp only at hia hiv htl hpp
  subst hia hiv hpp
  have h1 : ¬ tl ≤ 1 := not_le.mpr htl
  have h2 : ¬ tl = tl - 1 := by omega
  have h3 : (0 : Int) < tl - 1 := by omega
  simp [advanceOneSecond, clockTick, handleComplete, runEffects, timerEffect,
    cycleEffect, h1, h2, h3]

lemma advance_running_pending_wait (s : AppState) (p : PendingPhase)
    (hia : s.isActive = true) (hiv : s.intervalDelay = some 1)
    (htl : 1 < s.timeLeft) (hpp : s.pendingPhase = some p) (hd : 1 < p.delay) :
    advanceOneSecond s =
      { s with timeLeft := s.timeLeft - 1, intervalDelay := some 1
             , pendingPhase := some { p with delay := p.delay - 1 } } := by
  obtain ⟨tl, ia, ph, hd', ts, sc, iv, pp, st⟩ := s
  simp only at hia hiv htl hpp
  subst hia hiv hpp
  have h1 : ¬ tl ≤ 1 := not_le.mpr htl
  have h2 : ¬ tl = tl - 1 := by omega
  have h3 : (0 : Int) < tl - 1 := by omega
  have h4 : ¬ p.delay - 1 = 0 := by omega
  simp [advanceOneSecond, clockTick, handleComplete, runEffects, timerEffect,
    cycleEffect, h1, h2, h3, h4]

lemma advance_running_pending_fire (s : AppState) (p : PendingPhase)
    (hia : s.isActive = true) (hiv : s.intervalDelay = some 1)
    (htl : 1 < s.timeLeft) (hpp : s.pendingPhase = some p) (hd : p.delay ≤ 1) :
    advanceOneSecond s =
      firePhase
        { s with timeLeft := s.timeLeft - 1, intervalDelay := some 1
               , pendingPhase := none }
        ⟨p.next, 0, p.capturedActive, p.capturedHold⟩ := by
  obtain ⟨tl, ia, ph, hd', ts, sc, iv, pp, st⟩ := s
  simp only at hia hiv htl hpp
  subst hia hiv hpp
  have h1 : ¬ tl ≤ 1 := not_le.mpr htl
  have h2 : ¬ tl = tl - 1 := by omega
  have h3 : (0 : Int) < tl - 1 := by omega
  have h4 : p.delay - 1 = 0 := by omega
  obtain ⟨nx, d, ca, ch⟩ := p
  simp only at h4
  cases nx <;> cases ca <;>
    simp [advanceOneSecond, clockTick, handleComplete, runEffects, timerEffect,
      cycleEffect, firePhase, h1, h2, h3, h4]

/-! ## The state invariant is preserved by every event -/

lemma stateInv_init (st : Option String) : StateInv (initState st) := by
  refine ⟨Or.inl rfl, fun _ => ⟨rfl, rfl⟩, by simp [initState], ?_, by simp [initState]⟩
  show (0 : Int) ≤ INITIAL_TIME
  norm_num [INITIAL_TIME]

lemma stateInv_clickHold (s : AppState) (d : Nat) (hd : d = 1 ∨ d = 2 ∨ d = 4)
    (h : StateInv s) : StateInv (eventClickHold s d) := by
  obtain ⟨h1, h2, h3, h4, h5⟩ := h
  cases hact : s.isActive
  · rw [eventClickHold_inactive s d hact]
    obtain ⟨hpp, hiv⟩ := h2 hact
    exact ⟨hd, fun _ => ⟨hpp, hiv⟩, h3, h4, by simp [hpp]⟩
  · rw [eventClickHold_active s d hact]
    exact ⟨h1, h2, h3, h4, h5⟩

lemma stateInv_reset (s : AppState) (h : StateInv s) : StateInv (eventReset s) := by
  rw [eventReset_eq]
  obtain ⟨h1, -, -, -, -⟩ := h
  refine ⟨h1, fun _ => ⟨rfl, rfl⟩, by simp, ?_, by simp⟩
  show (0 : Int) ≤ INITIAL_TIME
  norm_num [INITIAL_TIME]

lemma stateInv_done (s : AppState) (h : StateInv s) : StateInv (eventDone s) := by
  obtain ⟨h1, h2, h3, h4, h5⟩ := h
  rw [eventDone_eq]
  cases hia : s.isActive
  · obtain ⟨hpp, hiv⟩ := h2 hia
    refine ⟨h1, fun _ => ⟨by simp [hpp], by simp [hiv]⟩, by simp,
      by norm_num [INITIAL_TIME], ?_⟩
    intro p hp
    simp [hpp] at hp
  · refine ⟨h1, fun _ => ⟨by simp, by simp⟩, by simp,
      by norm_num [INITIAL_TIME], ?_⟩
    intro p hp
    simp at hp

lemma stateInv_startPause (s : AppState) (h : StateInv s) :
    StateInv (eventStartPause s) := by
  obtain ⟨h1, h2, h3, h4, h5⟩ := h
  cases hia : s.isActive
  · obtain ⟨hpp, hiv⟩ := h2 hia
    by_cases htl : s.timeLeft = 0
    · rw [eventStartPause_finished s hia htl]
      refine ⟨h1, fun _ => ⟨by simp [hpp], rfl⟩, by simp, by norm_num [INITIAL_TIME], ?_⟩
      intro p hp
      simp [hpp] at hp
    · rw [eventStartPause_activate s hia htl]
      have htl0 : 0 < s.timeLeft := lt_of_le_of_ne h4 (Ne.symm htl)
      by_cases hph : s.phase = BreathPhase.Ready
      · refine ⟨h1, by simp, fun _ => ⟨by simp [htl0], htl0⟩, h4, ?_⟩
        intro p hp
        simp [hph] at hp
        subst hp
        exact ⟨rfl, rfl, fun _ => by simp [hph], fun hx => by simp at hx,
          fun hx => by simp at hx⟩
      · refine ⟨h1, by simp, fun _ => ⟨by simp [htl0], htl0⟩, h4, ?_⟩
        intro p hp
        simp [hph, hpp] at hp
  · rw [eventStartPause_pause s hia]
    exact ⟨h1, fun _ => ⟨rfl, rfl⟩, by simp, h4, by simp⟩

lemma stateInv_advance (s : AppState) (h : StateInv s) :
    StateInv (advanceOneSecond s) := by
  obtain ⟨h1, h2, h3, h4, h5⟩ := h
  cases hia : s.isActive
  · obtain ⟨hpp, hiv⟩ := h2 hia
    rw [advance_fix s hiv hpp]
    exact ⟨h1, h2, h3, h4, h5⟩
  · obtain ⟨hiv, htl⟩ := h3 hia
    rcases eq_or_lt_of_le (by omega : (1 : Int) ≤ s.timeLeft) with heq | hlt
    · rw [advance_complete s hia hiv heq.symm]
      exact ⟨h1, fun _ => ⟨rfl, rfl⟩, by simp, le_refl 0, by simp⟩
    · rcases hpp : s.pendingPhase with _ | p
      · rw [advance_running_nopending s hia hiv hlt hpp]
        refine ⟨h1, by simp [hia], fun _ => ⟨rfl, by dsimp only; omega⟩,
          by dsimp only; omega, ?_⟩
        intro q hq
        simp [hpp] at hq
      · obtain ⟨hca, hch, hnx1, hnx2, hnx3⟩ := h5 p hpp
        by_cases hd1 : p.delay ≤ 1
        · rw [advance_running_pending_fire s p hia hiv hlt hpp hd1]
          rcases hn : p.next with _ | _ | _ <;>
            simp only [firePhase, hca, hn] <;>
            norm_num <;>
            refine ⟨h1, by simp [hia], fun _ => ⟨rfl, by dsimp only; omega⟩,
              by dsimp only; omega, ?_⟩
          · intro q hq
            injection hq with hq
            subst hq
            exact ⟨rfl, hch, fun hx => by simp at hx, fun _ => rfl,
              fun hx => by simp at hx⟩
          · intro q hq
            injection hq with hq
            subst hq
            exact ⟨rfl, hch, fun hx => by simp at hx, fun hx => by simp at hx,
              fun _ => rfl⟩
          · intro q hq
            injection hq with hq
            subst hq
            exact ⟨rfl, hch, fun _ => rfl, fun hx => by simp at hx,
              fun hx => by simp at hx⟩
        · rw [advance_running_pending_wait s p hia hiv hlt hpp (by omega)]
          refine ⟨h1, by simp [hia], fun _ => ⟨rfl, by dsimp only; omega⟩,
            by dsimp only; omega, ?_⟩
          intro q hq
          injection hq with hq
          subst hq
          exact ⟨hca, hch, fun hx => hnx1 hx, fun hx => hnx2 hx, fun hx => hnx3 hx⟩

lemma reachable_stateInv {s : AppState} (h : Reachable s) : StateInv s := by
  induction h with
  | init st => exact stateInv_init st
  | startPause _ ih => exact stateInv_startPause _ ih
  | reset _ ih => exact stateInv_reset _ ih
  | done _ ih => exact stateInv_done _ ih
  | clickHold d hd _ ih => exact stateInv_clickHold _ d hd ih
  | advance _ ih => exact stateInv_advance _ ih

/-! ## The isolated Session Clock run -/

lemma clockStart_step (t : Nat) (ht : 2 ≤ t) :
    advanceOneSecond (clockStart t) = clockStart (t - 1) := by
  have h0 : 0 < t := by omega
  have h0' : 0 < t - 1 := by omega
  have h1 : ¬ ((t : Int) ≤ 1) := by omega
  have h2 : ¬ ((t : Int) = (t : Int) - 1) := by omega
  have h3 : (0 : Int) < (t : Int) - 1 := by omega
  simp [clockStart, advanceOneSecond, clockTick, handleComplete, runEffects,
    timerEffect, cycleEffect, h0, h0', h1, h2, h3]

lemma clockStart_one : advanceOneSecond (clockStart 1) = clockDone := by decide

lemma clockDone_fix (n : Nat) : advanceSeconds n clockDone = clockDone :=
  advanceSeconds_fix n clockDone rfl rfl

lemma clock_run (t n : Nat) (ht : 1 ≤ t) :
    advanceSeconds n (clockStart t) =
      if n < t then clockStart (t - n) else clockDone := by
  induction n generalizing t with
  | zero =>
      rw [if_pos (by omega)]
      rfl
  | succ n ih =>
      show advanceSeconds n (advanceOneSecond (clockStart t)) = _
      rcases eq_or_lt_of_le ht with h1 | h2
      · subst h1
        rw [clockStart_one, clockDone_fix, if_neg (by omega)]
      · rw [clockStart_step t (by omega), ih (t - 1) (by omega)]
        by_cases hn : n < t - 1
        · rw [if_pos hn, if_pos (by omega)]
          congr 1
          omega
        · rw [if_neg hn, if_neg (by omega)]

/-! ## Loading the stored counter -/

lemma isSpaceChar_eq_false_of_isDigit (c : Char) (h : c.isDigit = true) :
    isSpaceChar c = false := by
  cases hs : isSpaceChar c
  · rfl
  · exfalso
    simp only [isSpaceChar, Bool.or_eq_true, beq_iff_eq] at hs
    rcases hs with ((rfl | rfl) | rfl) | rfl <;> exact absurd h (by decide)

lemma ne_dash_of_isDigit (c : Char) (h : c.isDigit = true) : ¬ c = '-' := by
  intro hc
  subst hc
  exact absurd h (by decide)

lemma ne_plus_of_isDigit (c : Char) (h : c.isDigit = true) : ¬ c = '+' := by
  intro hc
  subst hc
  exact absurd h (by decide)

lemma leadingDigits_all (cs : List Char) (h : ∀ c ∈ cs, c.isDigit = true) :
    leadingDigits cs = cs := by
  induction cs with
  | nil => rfl
  | cons c rest ih =>
      rw [leadingDigits, if_pos (h c (by simp)), ih (fun x hx => h x (by simp [hx]))]

lemma parseIntTen_digits (cs : List Char) (hne : cs ≠ [])
    (h : ∀ c ∈ cs, c.isDigit = true) :
    parseIntTen (String.mk cs) = .int (digitsToNat cs) := by
  rcases cs with _ | ⟨c, rest⟩
  · exact absurd rfl hne
  · have hc : c.isDigit = true := h c (by simp)
    have hdrop : (String.mk (c :: rest)).toList.dropWhile isSpaceChar = c :: rest := by
      show (c :: rest).dropWhile isSpaceChar = c :: rest
      rw [List.dropWhile_cons, isSpaceChar_eq_false_of_isDigit c hc]
      simp
    simp only [parseIntTen, hdrop]
    rw [if_neg (ne_dash_of_isDigit c hc), if_neg (ne_plus_of_isDigit c hc)]
    rw [digitsVal, leadingDigits_all _ h, if_neg (by simp)]
    simp

lemma advanceSeconds_add (m n : Nat) (s : AppState) :
    advanceSeconds (m + n) s = advanceSeconds n (advanceSeconds m s) := by
  induction m generalizing s with
  | zero =>
      rw [Nat.zero_add]
      rfl
  | succ m ih =>
      have hmn : m + 1 + n = (m + n) + 1 := by omega
      rw [hmn]
      show advanceSeconds (m + n) (advanceOneSecond s) = _
      rw [ih]
      rfl

/-! ## Full-session scenario runs (chunked so each kernel reduction stays
shallow) -/

lemma run300_saved7 :
    advanceSeconds 300 (eventStartPause (initState (some "7"))) =
      ⟨0, false, .Complete, 1, .int 8, true, none, none, some "8"⟩ := by
  have e1 : advanceSeconds 100 (eventStartPause (initState (some "7"))) =
      ⟨200, true, .Inhale, 1, .int 7, false, some 1,
        some ⟨.toHold, 3, true, 1⟩, some "7"⟩ := by decide
  have e2 : advanceSeconds 100
      (⟨200, true, .Inhale, 1, .int 7, false, some 1,
        some ⟨.toHold, 3, true, 1⟩, some "7"⟩ : AppState) =
      ⟨100, true, .Inhale, 1, .int 7, false, some 1,
        some ⟨.toHold, 2, true, 1⟩, some "7"⟩ := by decide
  have e3 : advanceSeconds 100
      (⟨100, true, .Inhale, 1, .int 7, false, some 1,
        some ⟨.toHold, 2, true, 1⟩, some "7"⟩ : AppState) =
      ⟨0, false, .Complete, 1, .int 8, true, none, none, some "8"⟩ := by decide
  have h : (300 : Nat) = 100 + 100 + 100 := by norm_num
  rw [h, advanceSeconds_add, advanceSeconds_add, e1, e2, e3]

lemma run300_blank :
    advanceSeconds 300 (eventStartPause (initState none)) =
      ⟨0, false, .Complete, 1, .int 1, true, none, none, some "1"⟩ := by
  have e1 : advanceSeconds 100 (eventStartPause (initState none)) =
      ⟨200, true, .Inhale, 1, .int 0, false, some 1,
        some ⟨.toHold, 3, true, 1⟩, none⟩ := by decide
  have e2 : advanceSeconds 100
      (⟨200, true, .Inhale, 1, .int 0, false, some 1,
        some ⟨.toHold, 3, true, 1⟩, none⟩ : AppState) =
      ⟨100, true, .Inhale, 1, .int 0, false, some 1,
        some ⟨.toHold, 2, true, 1⟩, none⟩ := by decide
  have e3 : advanceSeconds 100
      (⟨100, true, .Inhale, 1, .int 0, false, some 1,
        some ⟨.toHold, 2, true, 1⟩, none⟩ : AppState) =
      ⟨0, false, .Complete, 1, .int 1, true, none, none, some "1"⟩ := by decide
  have h : (300 : Nat) = 100 + 100 + 100 := by norm_num
  rw [h, advanceSeconds_add, advanceSeconds_add, e1, e2, e3]

lemma reachable_advanceSeconds (n : Nat) {s : AppState} (h : Reachable s) :
    Reachable (advanceSeconds n s) := by
  induction n generalizing s with
  | zero => exact h
  | succ n ih => exact ih (Reachable.advance h)

/-! ## The claims -/

/-- Claim C1, counterexample at `t = 0`: the claim also covers `t = 0`, but
starting the Session Clock with the session active and `timeLeft = 0` the
timer effect never schedules the interval (`isActive && timeLeft > 0` is
false), so no tick ever runs and session completion never fires — advancing
time is the identity and the phase never becomes Complete, contradicting
"performs exactly 0 decrements before session completion fires". -/
theorem clock_at_zero_never_fires :
    (clockStart 0).intervalDelay = none ∧
    advanceOneSecond (clockStart 0) = clockStart 0 ∧
    (advanceSeconds 600 (clockStart 0)).phase ≠ BreathPhase.Complete := by
  refine ⟨by decide, by decide, ?_⟩
  rw [advanceSeconds_fix 600 (clockStart 0) (by decide) (by decide)]
  decide

/-- Claim C1, amended to `1 ≤ t`: for every `t` with `1 ≤ t ≤ 300`
(`totalSessionSeconds = 300`), the Session Clock started at `timeLeft = t`
with the session active ticks once per second; after `n < t` seconds it has
performed exactly `n` unit decrements (`timeLeft = t - n`) and completion
has not fired, and at second `t` — after exactly `t` decrements — the tick
with `timeLeft ≤ 1` sets `timeLeft = 0` and fires completion instead of
going negative; `timeLeft` is never negative. -/
theorem clock_countdown_exact (t n : Nat) (ht1 : 1 ≤ t) (ht2 : t ≤ 300) :
    (advanceSeconds n (clockStart t) =
      if n < t then clockStart (t - n) else clockDone) ∧
    (n < t → (advanceSeconds n (clockStart t)).timeLeft = ((t - n : Nat) : Int) ∧
      (advanceSeconds n (clockStart t)).phase ≠ BreathPhase.Complete) ∧
    (t ≤ n → (advanceSeconds n (clockStart t)).timeLeft = 0 ∧
      (advanceSeconds n (clockStart t)).phase = BreathPhase.Complete ∧
      (advanceSeconds n (clockStart t)).isActive = false) ∧
    (0 ≤ (advanceSeconds n (clockStart t)).timeLeft) ∧
    (∀ s : AppState, s.timeLeft ≤ 1 →
      (clockTick s).timeLeft = 0 ∧ (clockTick s).phase = BreathPhase.Complete ∧
      (clockTick s).isActive = false) := by
  have hrun := clock_run t n ht1
  refine ⟨hrun, ?_, ?_, ?_, ?_⟩
  · intro hn
    rw [hrun, if_pos hn]
    exact ⟨rfl, by simp [clockStart]⟩
  · intro hn
    rw [hrun, if_neg (by omega)]
    exact ⟨rfl, rfl, rfl⟩
  · rw [hrun]
    split_ifs
    · show (0 : Int) ≤ ((t - n : Nat) : Int)
      omega
    · show (0 : Int) ≤ 0
      exact le_refl 0
  · intro s hs
    simp [clockTick, handleComplete, hs]

/-- Claim C1 witness: at `t = 5`, after 2 seconds the clock shows 3 and
after 5 seconds completion has fired. -/
theorem clock_countdown_exact_witness :
    (advanceSeconds 2 (clockStart 5)).timeLeft = ((3 : Nat) : Int) ∧
    (advanceSeconds 5 (clockStart 5)).phase = BreathPhase.Complete := by
  constructor
  · exact ((clock_countdown_exact 5 2 (by decide) (by decide)).2.1 (by decide)).1
  · exact ((clock_countdown_exact 5 5 (by decide) (by decide)).2.2.1 (by decide)).2.1

/-- Claim C2: when the Session Clock reaches zero (the tick that fires with
`timeLeft = 1`), `complete()` sets `isActive = false`, `phase = Complete`,
`showCelebration = true`, sets `timeLeft = 0`, and increments the persisted
counter by exactly one, writing the new total to the store; and in the
whole-system run — the persisted counter starting at 7 — starting the
session and advancing 300 simulated seconds ends with `phase = Complete`,
`isActive = false`, `showCelebration = true`, the counter at exactly 8, and
`"8"` persisted, so the increment is exactly one relative to the value
before the session started. -/
theorem complete_increments_and_persists :
    (∀ (s : AppState) (n : Int), s.timeLeft = 1 → s.totalSessions = .int n →
      (clockTick s).isActive = false ∧
      (clockTick s).phase = BreathPhase.Complete ∧
      (clockTick s).showCelebration = true ∧
      (clockTick s).timeLeft = 0 ∧
      (clockTick s).totalSessions = .int (n + 1) ∧
      (clockTick s).store = some (toString (n + 1))) ∧
    ((advanceSeconds 300 (eventStartPause (initState (some "7")))).phase =
        BreathPhase.Complete ∧
      (advanceSeconds 300 (eventStartPause (initState (some "7")))).isActive = false ∧
      (advanceSeconds 300 (eventStartPause (initState (some "7")))).showCelebration = true ∧
      (advanceSeconds 300 (eventStartPause (initState (some "7")))).totalSessions =
        .int 8 ∧
      (advanceSeconds 300 (eventStartPause (initState (some "7")))).store = some "8") := by
  constructor
  · intro s n h1 h2
    simp [clockTick, handleComplete, h1, h2, JsNum.addOne, JsNum.render]
  · rw [run300_saved7]
    exact ⟨rfl, rfl, rfl, rfl, rfl⟩

/-- Claim C2 witness: the tick fact instantiated at the concrete state
`clockStart 1` whose counter is 0: the counter becomes 1 and `"1"` is
persisted. -/
theorem complete_increments_and_persists_witness :
    (clockTick (clockStart 1)).totalSessions = JsNum.int (0 + 1) ∧
    (clockTick (clockStart 1)).store = some (toString ((0 : Int) + 1)) :=
  ⟨(complete_increments_and_persists.1 (clockStart 1) 0 (by decide) (by decide)).2.2.2.2.1,
   (complete_increments_and_persists.1 (clockStart 1) 0 (by decide) (by decide)).2.2.2.2.2⟩

/-- Claim C3: whenever the session is deactivated (paused, reset, or
completed), every scheduled phase transition has been cancelled — a
reachable inactive state has no pending phase timeout and no interval, so
advancing any amount of time changes nothing (in particular never mutates
`phase`); and in the concrete scenario — start, pause 2 seconds into the
Inhale phase, reset — advancing 5 seconds (past the original 4-second
Inhale duration) leaves the state untouched with `phase = Ready`. -/
theorem no_transition_after_deactivation :
    (∀ (s : AppState) (n : Nat), Reachable s → s.isActive = false →
      s.pendingPhase = none ∧ s.intervalDelay = none ∧ advanceSeconds n s = s) ∧
    ((advanceSeconds 5 (eventReset (eventStartPause (advanceSeconds 2
        (eventStartPause (initState none)))))).phase = BreathPhase.Ready ∧
      advanceSeconds 5 (eventReset (eventStartPause (advanceSeconds 2
        (eventStartPause (initState none))))) =
        eventReset (eventStartPause (advanceSeconds 2
          (eventStartPause (initState none))))) := by
  constructor
  · intro s n hR hia
    obtain ⟨-, h2, -, -, -⟩ := reachable_stateInv hR
    obtain ⟨hpp, hiv⟩ := h2 hia
    exact ⟨hpp, hiv, advanceSeconds_fix n s hiv hpp⟩
  · exact ⟨by decide, by decide⟩

/-- Claim C3 witness: the general statement applied to the reachable
inactive state right after mount. -/
theorem no_transition_after_deactivation_witness :
    (initState none).pendingPhase = none ∧ (initState none).intervalDelay = none ∧
    advanceSeconds 9 (initState none) = initState none :=
  no_transition_after_deactivation.1 (initState none) 9 (Reachable.init none) rfl

/-- Claim C4: the Phase Sequencer cycles in the fixed order
Inhale → Hold → Exhale → Inhale with no phase skipped or repeated:
starting the cycle shows Inhale and schedules the Inhale→Hold step after
`INHALE_TIME = 4` seconds; in every reachable state the scheduled step
matches the phase on display (`toHold` only during Inhale, `toExhale` only
during Hold, `toRestart` only during Exhale) and carries the running
cycle's hold duration, and firing it moves to exactly the cyclic successor
— Hold for `holdDurationSeconds` seconds, then Exhale for
`EXHALE_TIME = 4` seconds, then Inhale again for 4 seconds; and a session
that transitions from not-active to active while `phase = Ready` restarts
the cycle from Inhale. -/
theorem phase_cycle_order :
    (∀ s : AppState, (startBreathingCycle s).phase = BreathPhase.Inhale ∧
      (startBreathingCycle s).pendingPhase =
        some ⟨.toHold, INHALE_TIME, s.isActive, s.holdDuration⟩) ∧
    (∀ (s s2 : AppState) (p : PendingPhase), Reachable s →
      s.pendingPhase = some p →
      p.capturedActive = true ∧ p.capturedHold = s.holdDuration ∧
      (p.next = .toHold → s.phase = BreathPhase.Inhale ∧
        (firePhase s2 p).phase = BreathPhase.Hold ∧
        (firePhase s2 p).pendingPhase =
          some ⟨.toExhale, s.holdDuration, true, s.holdDuration⟩) ∧
      (p.next = .toExhale → s.phase = BreathPhase.Hold ∧
        (firePhase s2 p).phase = BreathPhase.Exhale ∧
        (firePhase s2 p).pendingPhase =
          some ⟨.toRestart, EXHALE_TIME, true, s.holdDuration⟩) ∧
      (p.next = .toRestart → s.phase = BreathPhase.Exhale ∧
        (firePhase s2 p).phase = BreathPhase.Inhale ∧
        (firePhase s2 p).pendingPhase =
          some ⟨.toHold, INHALE_TIME, true, s.holdDuration⟩)) ∧
    (∀ s : AppState, s.isActive = false → s.phase = BreathPhase.Ready →
      s.timeLeft ≠ 0 →
      (eventStartPause s).isActive = true ∧
      (eventStartPause s).phase = BreathPhase.Inhale ∧
      (eventStartPause s).pendingPhase =
        some ⟨.toHold, INHALE_TIME, true, s.holdDuration⟩) ∧
    INHALE_TIME = 4 ∧ EXHALE_TIME = 4 := by
  refine ⟨fun s => ⟨rfl, rfl⟩, ?_, ?_, rfl, rfl⟩
  · intro s s2 p hR hp
    obtain ⟨-, -, -, -, h5⟩ := reachable_stateInv hR
    obtain ⟨hca, hch, hx1, hx2, hx3⟩ := h5 p hp
    refine ⟨hca, hch, ?_, ?_, ?_⟩ <;> intro hn
    · exact ⟨hx1 hn, by simp [firePhase, hca, hn], by simp [firePhase, hca, hn, hch]⟩
    · exact ⟨hx2 hn, by simp [firePhase, hca, hn], by simp [firePhase, hca, hn, hch]⟩
    · exact ⟨hx3 hn, by simp [firePhase, hca, hn], by simp [firePhase, hca, hn, hch]⟩
  · intro s hia hph htl
    rw [eventStartPause_activate s hia htl]
    refine ⟨rfl, by simp [hph], by simp [hph]⟩

/-- Claim C4 witness: starting the session from the mounted state shows
Inhale with the Inhale→Hold step scheduled, and firing that step moves the
display to Hold. -/
theorem phase_cycle_order_witness :
    (eventStartPause (initState none)).phase = BreathPhase.Inhale ∧
    (firePhase (eventStartPause (initState none))
        ⟨.toHold, INHALE_TIME, true, 1⟩).phase = BreathPhase.Hold := by
  constructor
  · exact (phase_cycle_order.2.2.1 (initState none) rfl rfl (by decide)).2.1
  · exact ((phase_cycle_order.2.1 (eventStartPause (initState none))
      (eventStartPause (initState none)) ⟨.toHold, INHALE_TIME, true, 1⟩
      (Reachable.startPause (Reachable.init none)) (by decide)).2.2.1 rfl).2.1

/-- Claim C5: in a reachable state with `timeLeft = 0` and the session not
active (a finished session), `startOrPause()` performs a full reset —
`timeLeft = totalSessionSeconds`, `phase = Ready`, inactive, no
celebration, and no scheduled clock tick or phase timeout — instead of
toggling `isActive`; in every other reachable state it toggles
`isActive`. -/
theorem startPause_after_finish_resets (s : AppState) (hR : Reachable s) :
    ((s.isActive = false ∧ s.timeLeft = 0) →
      (eventStartPause s).timeLeft = INITIAL_TIME ∧
      (eventStartPause s).phase = BreathPhase.Ready ∧
      (eventStartPause s).isActive = false ∧
      (eventStartPause s).showCelebration = false ∧
      (eventStartPause s).intervalDelay = none ∧
      (eventStartPause s).pendingPhase = none) ∧
    (¬ (s.isActive = false ∧ s.timeLeft = 0) →
      (eventStartPause s).isActive = !s.isActive) := by
  constructor
  · rintro ⟨hia, htl⟩
    obtain ⟨-, h2, -, -, -⟩ := reachable_stateInv hR
    obtain ⟨hpp, -⟩ := h2 hia
    rw [eventStartPause_finished s hia htl]
    exact ⟨rfl, rfl, rfl, rfl, rfl, hpp⟩
  · intro hne
    cases hia : s.isActive
    · have htl : s.timeLeft ≠ 0 := fun h => hne ⟨hia, h⟩
      rw [eventStartPause_activate s hia htl]
      rfl
    · rw [eventStartPause_pause s hia]
      rfl

/-- Claim C5 witness: after a full 300-second session (a reachable state
with `timeLeft = 0`, inactive), pressing start resets the countdown to
`INITIAL_TIME`; and in the freshly mounted state the same button simply
toggles `isActive`. -/
theorem startPause_after_finish_resets_witness :
    (eventStartPause (advanceSeconds 300 (eventStartPause (initState none)))).timeLeft
        = INITIAL_TIME ∧
    (eventStartPause (initState none)).isActive = !(initState none).isActive := by
  constructor
  · exact ((startPause_after_finish_resets _
      (reachable_advanceSeconds 300 (Reachable.startPause (Reachable.init none)))).1
      ⟨by rw [run300_blank], by rw [run300_blank]⟩).1
  · exact (startPause_after_finish_resets (initState none) (Reachable.init none)).2
      (by decide)

/-- Claim C6, counterexample: a malformed (digit-free) stored entry such as
`"abc"` is truthy, so the initialization effect runs
`parseInt("abc", 10)`, which is NaN — the counter is initialized to NaN,
not to the default 0 that the claim states. -/
theorem malformed_count_loads_nan :
    initTotalSessions (some "abc") = JsNum.nan ∧ JsNum.nan ≠ JsNum.int 0 :=
  ⟨by decide, by decide⟩

/-- Claim C6, amended: an absent `meditation_count` entry (and likewise an
empty string, which is falsy) leaves the counter at the default 0, and an
entry that is a plain base-10 digit string loads exactly its numeric
value; but a malformed non-empty entry with no leading digits loads NaN
rather than falling back to 0. -/
theorem counter_load_behavior :
    initTotalSessions none = JsNum.int 0 ∧
    initTotalSessions (some "") = JsNum.int 0 ∧
    (∀ cs : List Char, cs ≠ [] → (∀ c ∈ cs, c.isDigit = true) →
      initTotalSessions (some (String.mk cs)) = JsNum.int (digitsToNat cs)) ∧
    initTotalSessions (some "abc") = JsNum.nan := by
  refine ⟨rfl, by decide, ?_, by decide⟩
  intro cs hne h
  have hmk : ¬ (String.mk cs = "") := by
    rcases cs with _ | ⟨c, rest⟩
    · exact absurd rfl hne
    · intro hx
      simpa using congrArg String.data hx
  show (if String.mk cs = "" then JsNum.int 0 else parseIntTen (String.mk cs)) = _
  rw [if_neg hmk]
  exact parseIntTen_digits cs hne h

/-- Claim C6 witness: the digit-string case applied to the entry `"42"`. -/
theorem counter_load_behavior_witness :
    initTotalSessions (some (String.mk ['4', '2'])) =
      JsNum.int (digitsToNat ['4', '2']) :=
  counter_load_behavior.2.2.1 ['4', '2'] (by decide) (by decide)

/-- Claim C7, counterexample: `playBeep` contains no error handling, and in
`handleComplete` the `playBeep(600, 'triangle')` call comes before the
counter increment and the `localStorage.setItem`.  In the concrete state
below (counter 5, stored `"5"`) a throwing tone acquisition leaves the
counter at 5 and the store at `"5"` even though the completion state
changes issued before the call took effect — the failure is not swallowed
and the increment-and-persist does not happen, contradicting the claim. -/
theorem beep_throw_skips_increment :
    (handleComplete ⟨1, true, .Exhale, 1, .int 5, false, some 1, none, some "5"⟩
        true).phase = BreathPhase.Complete ∧
    (handleComplete ⟨1, true, .Exhale, 1, .int 5, false, some 1, none, some "5"⟩
        true).totalSessions = JsNum.int 5 ∧
    (handleComplete ⟨1, true, .Exhale, 1, .int 5, false, some 1, none, some "5"⟩
        true).totalSessions ≠ JsNum.int 6 ∧
    (handleComplete ⟨1, true, .Exhale, 1, .int 5, false, some 1, none, some "5"⟩
        true).store = some "5" := by
  refine ⟨by decide, by decide, by decide, by decide⟩

/-- Claim C7, amended: when the completion tone throws during
`complete()`, the state updates issued before the call —
`isActive = false`, `phase = Complete`, `showCelebration = true` — still
take effect, but the counter increment and the persist, which come after
the call, are skipped: `totalSessions` and the stored entry are
unchanged. -/
theorem beep_failure_partial_complete (s : AppState) :
    (handleComplete s true).isActive = false ∧
    (handleComplete s true).phase = BreathPhase.Complete ∧
    (handleComplete s true).showCelebration = true ∧
    (handleComplete s true).totalSessions = s.totalSessions ∧
    (handleComplete s true).store = s.store ∧
    (handleComplete s true).timeLeft = s.timeLeft := by
  simp [handleComplete]

/-- Claim C8: a hold-duration selection of an offered value (1, 2 or 4
seconds) is a complete no-op while the session is active, and while
inactive it updates `holdDuration` to the requested value and changes
nothing else. -/
theorem setHoldDuration_gating (s : AppState) (d : Nat)
    (hd : d = 1 ∨ d = 2 ∨ d = 4) :
    (s.isActive = true → eventClickHold s d = s) ∧
    (s.isActive = false → eventClickHold s d = { s with holdDuration := d }) :=
  ⟨fun h => eventClickHold_active s d h, fun h => eventClickHold_inactive s d h⟩

/-- Claim C8 witness: selecting 2 seconds in the freshly mounted (inactive)
state updates only the hold duration, and selecting 4 seconds right after
starting a session changes nothing. -/
theorem setHoldDuration_gating_witness :
    eventClickHold (initState none) 2 = { initState none with holdDuration := 2 } ∧
    eventClickHold (eventStartPause (initState none)) 4 =
      eventStartPause (initState none) := by
  constructor
  · exact (setHoldDuration_gating (initState none) 2 (Or.inr (Or.inl rfl))).2 rfl
  · exact (setHoldDuration_gating (eventStartPause (initState none)) 4
      (Or.inr (Or.inr rfl))).1 (by decide)

/-- Claim C9: `reset()` is idempotent — for every starting state, pressing
reset twice gives exactly the state of pressing it once, namely
`timeLeft = INITIAL_TIME`, `phase = Ready`, `isActive = false`,
`showCelebration = false`, with both the clock tick and the phase timeout
cancelled. -/
theorem reset_idempotent (s : AppState) :
    eventReset (eventReset s) = eventReset s ∧
    (eventReset s).timeLeft = INITIAL_TIME ∧
    (eventReset s).phase = BreathPhase.Ready ∧
    (eventReset s).isActive = false ∧
    (eventReset s).showCelebration = false ∧
    (eventReset s).intervalDelay = none ∧
    (eventReset s).pendingPhase = none := by
  constructor
  · rw [eventReset_eq s, eventReset_eq]
  · rw [eventReset_eq s]
    exact ⟨rfl, rfl, rfl, rfl, rfl, rfl⟩

/-- Claim C10: in every reachable state `holdDurationSeconds` is one of
the offered values 1, 2 or 4 — it starts at 1 and the selector, the only
mutation entry point, offers exactly those three — and the fixed timing
constants are `totalSessionSeconds = INITIAL_TIME = 300` and
`INHALE_TIME = EXHALE_TIME = 4`. -/
theorem hold_duration_invariant (s : AppState) (hR : Reachable s) :
    (s.holdDuration = 1 ∨ s.holdDuration = 2 ∨ s.holdDuration = 4) ∧
    (∀ st : Option String, (initState st).holdDuration = 1) ∧
    INITIAL_TIME = 300 ∧ INHALE_TIME = 4 ∧ EXHALE_TIME = 4 :=
  ⟨(reachable_stateInv hR).1, fun _ => rfl, rfl, rfl, rfl⟩

/-- Claim C10 witness: the invariant evaluated at the mounted state. -/
theorem hold_duration_invariant_witness :
    ((initState none).holdDuration = 1 ∨ (initState none).holdDuration = 2 ∨
      (initState none).holdDuration = 4) ∧ INITIAL_TIME = 300 :=
  ⟨(hold_duration_invariant (initState none) (Reachable.init none)).1,
   (hold_duration_invariant (initState none) (Reachable.init none)).2.2.1⟩
